import Mathlib

set_option autoImplicit false

namespace PlJdt

/-!
# Shallow embedding of `src/scripts/det_train.py`

The script reads a hierarchical configuration (`cfg`), resolves defaults for
missing keys, and forwards the resolved keyword arguments into external
framework constructors (dataset, module, trainer, loggers, callbacks) before
invoking the training loop.  We embed:

* the configuration tree (`Value`, `Dict`) with the access semantics of the
  configuration library: attribute access on a missing key raises, `keys()`
  on a non-mapping raises, guarded `k in d.keys()` checks are pure;
* each keyword-argument resolution block of `main` as a pure function into
  `Except Err _` (a raised exception is an `Err`);
* the straight-line control flow of `main` as a list of actions (`script`):
  pure config resolutions, external framework calls, and the phase markers
  of the spec, executed in order by `runScript` against an oracle that says
  which external calls succeed or raise.
-/

/--
A configuration value from the YAML/OmegaConf tree consumed by
`src/scripts/det_train.py`.  Scalars, lists and nested mappings are the only
shapes the script reads.  A decimal literal such as `0.0005` is carried
verbatim (the script never computes with it); it is represented exactly as
`vFloat m e` meaning `m * 10 ^ (-e)`, so `0.0005 = vFloat 5 4`.
-/
inductive Value where
  | vNone
  | vBool (b : Bool)
  | vInt (n : Int)
  | vFloat (m : Int) (e : Nat)
  | vStr (s : String)
  | vList (l : List Value)
  | vDict (d : List (String × Value))

abbrev Dict := List (String × Value)

/-- First-match association-list lookup: access into a config mapping. -/
def lookupD (d : Dict) (k : String) : Option Value :=
  match d with
  | [] => none
  | (k', v) :: rest => if k' = k then some v else lookupD rest k

/-- `k in d.keys()` on a mapping. -/
def hasKeyD (d : Dict) (k : String) : Bool :=
  (lookupD d k).isSome

/-- Exceptions observable from `main`: config-access errors raised by the
configuration library, and errors raised inside external framework calls
(carried verbatim, with an arbitrary payload). -/
inductive Err where
  | missingKey (k : String)
  | notADict (k : String)
  | noLen
  | extErr (site : String) (msg : String)
deriving DecidableEq, Repr

/-- Python truthiness, as used by `if checkpoint_path:`,
`if not trainer_kwargs['fast_dev_run']:` and `cfg.exp.csv and ...`. -/
def Value.truthy : Value → Bool
  | .vNone => false
  | .vBool b => b
  | .vInt n => n != 0
  | .vFloat m _ => m != 0
  | .vStr s => s ≠ ""
  | .vList l => !l.isEmpty
  | .vDict d => !d.isEmpty

/-- `.keys()` access: valid only on a mapping, raises otherwise. -/
def Value.asDict (k : String) : Value → Except Err Dict
  | .vDict d => .ok d
  | _ => .error (.notADict k)

/-- Python `len` on a config value (`len(cfg.exp.devices)`): defined for
lists, strings and mappings, raises otherwise. -/
def Value.lenV : Value → Except Err Nat
  | .vList l => .ok l.length
  | .vStr s => .ok s.length
  | .vDict d => .ok d.length
  | _ => .error .noLen

/-- Attribute access `d.k`: raises on a missing key. -/
def attr (d : Dict) (k : String) : Except Err Value :=
  match lookupD d k with
  | some v => .ok v
  | none => .error (.missingKey k)

/-- `cfg.exp.sec` viewed as a mapping (for a subsequent `.keys()` or
attribute access): raises if `sec` is missing or not a mapping. -/
def sub (exp : Dict) (sec : String) : Except Err Dict := do
  (← attr exp sec).asDict sec

/-- `k in cfg.exp.sec.keys()`: evaluating the receiver may raise. -/
def hasSub (exp : Dict) (sec k : String) : Except Err Bool := do
  pure (hasKeyD (← sub exp sec) k)

/-- `cfg.exp.sec.k`: nested attribute access. -/
def subAttr (exp : Dict) (sec k : String) : Except Err Value := do
  attr (← sub exp sec) k

/-- `cfg.exp.k if 'k' in cfg.exp.keys() else dflt` — the guarded top-level
pattern; the guard makes it pure. -/
def topOr (exp : Dict) (k : String) (dflt : Value) : Value :=
  (lookupD exp k).getD dflt

/-- `'k' in cfg.exp.keys() and cfg.exp.k` — presence plus truthiness. -/
def topFlag (exp : Dict) (k : String) : Bool :=
  match lookupD exp k with
  | some v => v.truthy
  | none => false

/-! ## Dataset kwargs (det_train.py lines 53-60) -/

/-- The keyword arguments passed to `LitDataset`. -/
structure DatasetKwargs where
  batch_size : Value
  val_batch_size : Value
  num_workers : Value
  train_split : Value
  val_split : Value
  test_split : Value

/-- One split entry:
`cfg.exp.split.k if 'split' in cfg.exp.keys() and 'k' in cfg.exp.split.keys() else None`
(`and` short-circuits, so `cfg.exp.split` is only touched when present). -/
def splitEntry (exp : Dict) (k : String) : Except Err Value :=
  if hasKeyD exp "split" then do
    if (← hasSub exp "split" k) then subAttr exp "split" k else pure .vNone
  else pure .vNone

/-- Line 54: `cfg.exp.train.batch_size if 'batch_size' in cfg.exp.train.keys() else 2`. -/
def trainBatchSizeEntry (exp : Dict) : Except Err Value := do
  if (← hasSub exp "train" "batch_size")
  then subAttr exp "train" "batch_size" else pure (.vInt 2)

/-- Line 55, verbatim: the guard tests the key `val_batch_size` of
`cfg.exp.val` but the branches read `cfg.exp.val.batch_size`
resp. `cfg.exp.train.batch_size`. -/
def valBatchSizeEntry (exp : Dict) : Except Err Value := do
  if (← hasSub exp "val" "val_batch_size")
  then subAttr exp "val" "batch_size"
  else subAttr exp "train" "batch_size"

/-- Lines 53-60.  Entries are evaluated top to bottom, as in the Python dict
literal; the first raised exception aborts. -/
def datasetKwargs (exp : Dict) : Except Err DatasetKwargs := do
  let bs ← trainBatchSizeEntry exp
  let vbs ← valBatchSizeEntry exp
  let nw := topOr exp "num_workers" (.vInt 4)
  let ts ← splitEntry exp "train"
  let vs ← splitEntry exp "val"
  let tst ← splitEntry exp "test"
  pure ⟨bs, vbs, nw, ts, vs, tst⟩

/-! ## Module construction (lines 66-83) -/

/-- Hardcoded optimizer default of line 79. -/
def defaultOptimizer : Value :=
  .vDict [("name", .vStr "sgd"),
          ("params", .vDict [("lr", .vFloat 1 5),
                             ("weight_decay", .vFloat 5 4),
                             ("momentum", .vFloat 9 1)])]

/-- Hardcoded lr-scheduler default of line 80. -/
def defaultLrScheduler : Value :=
  .vDict [("name", .vStr "step"),
          ("params", .vDict [("step_size", .vInt 10),
                             ("gamma", .vFloat 1 1)])]

/-- How the module is built: resumed from a checkpoint (line 76) or fresh
with resolved optimizer / lr-scheduler / warmup kwargs (line 83). -/
inductive ModuleSpec where
  | resumed (checkpoint_path : Value)
  | fresh (optimizer lr_scheduler warmup : Value)

/-- `cfg.exp.train.k if 'train' in cfg.exp.keys() and 'k' in cfg.exp.train.keys() else dflt`. -/
def trainOr (exp : Dict) (k : String) (dflt : Value) : Except Err Value :=
  if hasKeyD exp "train" then do
    if (← hasSub exp "train" k) then subAttr exp "train" k else pure dflt
  else pure dflt

/-- Line 71: `cfg.exp.checkpoint_path if 'checkpoint_path' in cfg.exp.keys() else False`. -/
def checkpointPathOf (exp : Dict) : Value :=
  topOr exp "checkpoint_path" (.vBool false)

/-- Lines 71-83: the module is resumed iff the resolved `checkpoint_path`
is truthy, else built fresh with the optimizer / lr-scheduler / warmup
resolutions of lines 79-81. -/
def moduleSpec (exp : Dict) : Except Err ModuleSpec :=
  if (checkpointPathOf exp).truthy then
    pure (.resumed (checkpointPathOf exp))
  else do
    let opt ← trainOr exp "optimizer" defaultOptimizer
    let lrs ← trainOr exp "lr_scheduler" defaultLrScheduler
    let w ← trainOr exp "warmup" (.vBool false)
    pure (.fresh opt lrs w)

/-- The fresh-module resolutions of lines 79-81 fall back to their defaults
exactly when `'train' in cfg.exp.keys() and 'k' in cfg.exp.train.keys()` is
false, i.e. the `train` section is absent, or present (as a mapping) without
the key. -/
def trainKeyAbsent (exp : Dict) (k : String) : Prop :=
  lookupD exp "train" = none ∨
  ∃ td, lookupD exp "train" = some (.vDict td) ∧ lookupD td k = none

/-! ## Trainer kwargs (lines 86-129) -/

/-- The keyword arguments passed to `pl.Trainer` (loggers and callbacks are
attached separately).  `strategy`, `amp_backend` and `sync_batchnorm` are
`Option` because the corresponding keys are only put into the kwargs dict in
the multi-device branch. -/
structure TrainerKwargs where
  max_epochs : Value
  check_val_every_n_epoch : Value
  log_every_n_steps : Value
  fast_dev_run : Value
  num_sanity_val_steps : Value
  profiler : Value
  overfit_batches : Value
  devices : Value
  accelerator : Value
  strategy : Option Value
  amp_backend : Option Value
  sync_batchnorm : Option Value

/-- Lines 86-116: the seven guarded hyperparameter entries of the literal
dict, plus the unconditional `devices`/`accelerator` seed values of
lines 113-116 (both overwritten by lines 117-129). -/
def trainerKwargsBase (exp : Dict) : TrainerKwargs where
  max_epochs := topOr exp "max_epochs" (.vInt 10)
  check_val_every_n_epoch := topOr exp "check_val_every_n_epoch" (.vInt 2)
  log_every_n_steps := topOr exp "log_every_n_steps" (.vInt 200)
  fast_dev_run := topOr exp "fast_dev_run" (.vBool false)
  num_sanity_val_steps := topOr exp "num_sanity_val_steps" (.vInt 0)
  profiler := topOr exp "profiler" .vNone
  overfit_batches := topOr exp "overfit_batches" (.vInt 0)
  devices := .vInt 1
  accelerator := .vStr "gpu"
  strategy := none
  amp_backend := none
  sync_batchnorm := none

/-- Lines 86-129.  `'devices' in cfg.exp.keys() and len(cfg.exp.devices) > 1`
short-circuits, and `len` may raise; the multi-device branch additionally
passes `strategy`, `amp_backend`, `sync_batchnorm`. -/
def trainerKwargs (exp : Dict) : Except Err TrainerKwargs := do
  let base := trainerKwargsBase exp
  match lookupD exp "devices" with
  | some d => do
      let n ← d.lenV
      if 1 < n then
        pure { base with
          devices := .vInt (Int.ofNat n)
          accelerator := topOr exp "accelerator" (.vStr "gpu")
          strategy := some (topOr exp "strategy" (.vStr "ddp"))
          amp_backend := some (topOr exp "amp_backend" (.vStr "native"))
          sync_batchnorm := some (topOr exp "sync_batchnorm" (.vBool false)) }
      else
        pure { base with
          devices := topOr exp "devices" (.vList [.vInt 0])
          accelerator := topOr exp "accelerator" (.vStr "gpu") }
  | none =>
      pure { base with
        devices := topOr exp "devices" (.vList [.vInt 0])
        accelerator := topOr exp "accelerator" (.vStr "gpu") }

/-- The condition of line 117:
`'devices' in cfg.exp.keys() and len(cfg.exp.devices) > 1`. -/
def multiDevice (exp : Dict) : Prop :=
  ∃ d n, lookupD exp "devices" = some d ∧ d.lenV = .ok n ∧ 1 < n

/-! ## Loggers (lines 130-156) -/

/-- A constructed logger object, with the kwargs it was built from. -/
inductive LoggerC where
  | csv (save_dir name : String)
  | tb (save_dir name : String)
  | wandb (project name save_dir : String)

/-- Lines 130-156: loggers are only built when `fast_dev_run` is falsy; each
of csv / tb / wandb is enabled by key presence plus truthiness, in this
order. -/
def loggersOf (exp : Dict) (project_name output_path run_name : String)
    (fdr : Value) : List LoggerC :=
  if fdr.truthy then []
  else
    (if topFlag exp "csv" then [LoggerC.csv (output_path ++ "/csv_logs") run_name] else []) ++
    (if topFlag exp "tb" then [LoggerC.tb (output_path ++ "/tb_logs") run_name] else []) ++
    (if topFlag exp "wandb" then [LoggerC.wandb project_name run_name output_path] else [])

/-! ## Callbacks (lines 158-199) -/

/-- A constructed callback object, with the kwargs it was built from. -/
inductive CallbackC where
  | progress_bar (refresh_rate : Value)
  | checkpoints (dirpath monitor : Value)
  | device_stats_monitor
  | early_stopping (monitor patience : Value)
  | model_summary (max_depth : Value)

/-- Line 169:
`cfg.exp.checkpoints.dirpath if 'dirpath' in cfg.exp.checkpoints.keys() else f'{exp_path}/ckpts'`. -/
def ckptDirpathEntry (exp : Dict) (exp_path : String) : Except Err Value := do
  if (← hasSub exp "checkpoints" "dirpath")
  then subAttr exp "checkpoints" "dirpath"
  else pure (.vStr (exp_path ++ "/ckpts"))

/-- Line 171:
`cfg.exp.checkpoints.monitor if 'monitor' in cfg.exp.checkpoints.keys() else 'train/epoch/loss'`. -/
def ckptMonitorEntry (exp : Dict) : Except Err Value := do
  if (← hasSub exp "checkpoints" "monitor")
  then subAttr exp "checkpoints" "monitor"
  else pure (.vStr "train/epoch/loss")

/-- Lines 167-182: the `ModelCheckpoint` kwargs `(dirpath, monitor)`.  When
the `checkpoints` section is present its sub-keys are resolved with defaults
`f'{exp_path}/ckpts'` and `'train/epoch/loss'`; when the section is absent
the literal kwargs use `'val/epoch/loss'` instead. -/
def checkpointsResolve (exp : Dict) (exp_path : String) :
    Except Err (Value × Value) := do
  if hasKeyD exp "checkpoints" then do
    let dp ← ckptDirpathEntry exp exp_path
    let mon ← ckptMonitorEntry exp
    pure (dp, mon)
  else
    pure (.vStr (exp_path ++ "/ckpts"), .vStr "val/epoch/loss")

/-- Line 188:
`cfg.exp.early_stopping.monitor if 'monitor' in cfg.exp.early_stopping.keys() else 'train/epoch/loss'`. -/
def esMonitorEntry (exp : Dict) : Except Err Value := do
  if (← hasSub exp "early_stopping" "monitor")
  then subAttr exp "early_stopping" "monitor"
  else pure (.vStr "train/epoch/loss")

/-- Line 189:
`cfg.exp.early_stopping.patience if 'patience' in cfg.exp.early_stopping.keys() else 3`. -/
def esPatienceEntry (exp : Dict) : Except Err Value := do
  if (← hasSub exp "early_stopping" "patience")
  then subAttr exp "early_stopping" "patience"
  else pure (.vInt 3)

/-- Lines 186-192: the `EarlyStopping` kwargs `(monitor, patience)`
(evaluated only when the `early_stopping` key is present). -/
def earlyStoppingResolve (exp : Dict) : Except Err (Value × Value) := do
  let mon ← esMonitorEntry exp
  let pat ← esPatienceEntry exp
  pure (mon, pat)

/-- Lines 193-198: the `ModelSummary` kwarg `max_depth` (evaluated only when
the `model_summary` key is present). -/
def modelSummaryResolve (exp : Dict) : Except Err Value := do
  if (← hasSub exp "model_summary" "max_depth")
  then subAttr exp "model_summary" "max_depth"
  else pure (.vInt 1)

/-- Lines 186-192: the `EarlyStopping` callback, present in the callbacks
dict exactly when the `early_stopping` key is present. -/
def esCallbackOpt (exp : Dict) : Except Err (List CallbackC) := do
  if hasKeyD exp "early_stopping" then do
    let mp ← earlyStoppingResolve exp
    pure [CallbackC.early_stopping mp.1 mp.2]
  else pure []

/-- Lines 193-198: the `ModelSummary` callback, present in the callbacks
dict exactly when the `model_summary` key is present. -/
def msCallbackOpt (exp : Dict) : Except Err (List CallbackC) := do
  if hasKeyD exp "model_summary" then do
    let d ← modelSummaryResolve exp
    pure [CallbackC.model_summary d]
  else pure []

/-- Lines 158-199: callbacks are only built when `fast_dev_run` is falsy;
insertion order of the callbacks dict is progress_bar, checkpoints,
device_stats_monitor, early_stopping, model_summary. -/
def callbacksOf (exp : Dict) (exp_path : String) (fdr : Value) :
    Except Err (List CallbackC) := do
  if fdr.truthy then pure []
  else do
    let ck ← checkpointsResolve exp exp_path
    let es ← esCallbackOpt exp
    let ms ← msCallbackOpt exp
    pure ([CallbackC.progress_bar (topOr exp "refresh_rate" (.vInt 1)),
           .checkpoints ck.1 ck.2] ++
          (if topFlag exp "device_stats_monitor" then [.device_stats_monitor] else []) ++
          es ++ ms)

/-! ## The control flow of `main` (lines 36-209) -/

/-- The configuration handed to `main` by the configuration framework.
`cfg.project.*` and `cfg.exp.name` are read unconditionally as strings;
everything the claims are about lives under `cfg.exp`. -/
structure Config where
  projectName : String
  rootDir : String
  outputDir : String
  dataDir : String
  expName : String
  exp : Dict

/-- `output_path = f'{cfg.project.root_dir}/{cfg.project.output_dir}'` (line 41). -/
def outputPath (cfg : Config) : String :=
  cfg.rootDir ++ "/" ++ cfg.outputDir

/-- The phases of `main`, in the spec's wording. -/
inductive Step where
  | configParsing
  | expNaming
  | datasetStep
  | moduleStep
  | trainerKwargsStep
  | loggerStep
  | callbackStep
  | fitStep
deriving DecidableEq, Repr

/-- The external framework call sites of `main`, in source order. -/
inductive ExtCall where
  | seedEverything
  | litDataset
  | prepareData
  | setupData
  | trainDataloader
  | loadFromCheckpoint
  | litModule
  | csvLogger
  | tensorBoardLogger
  | wandbLogger
  | tqdmProgressBar
  | modelCheckpoint
  | deviceStatsCb
  | earlyStoppingCb
  | modelSummaryCb
  | plTrainer
  | valDataloader
  | fitLoop
deriving DecidableEq, Repr

/-- An observable event of a run: a phase marker or an external call. -/
inductive Event where
  | step (s : Step)
  | call (c : ExtCall)
deriving DecidableEq, Repr

/-- One action of the straight-line body of `main`: a pure configuration
resolution (which may raise), an external framework call, or a phase
marker. -/
inductive Action where
  | resolveA (r : Except Err Unit)
  | callA (c : ExtCall)
  | stepA (s : Step)
deriving Repr

/-- Forget the value of a resolution, keeping the raised exception. -/
def toUnit {α : Type} : Except Err α → Except Err Unit
  | .ok _ => .ok ()
  | .error e => .error e

/-- Which logger constructor a resolved logger entry calls. -/
def loggerCall : LoggerC → ExtCall
  | .csv _ _ => .csvLogger
  | .tb _ _ => .tensorBoardLogger
  | .wandb _ _ _ => .wandbLogger

/-- Lines 201-209: trainer construction, argument evaluation and `fit`. -/
def fitTail : List Action :=
  [.stepA .fitStep, .callA .plTrainer, .callA .trainDataloader,
   .callA .valDataloader, .callA .fitLoop]

/-- Lines 193-199 then 201-209: `ModelSummary` (when the key is present)
followed by the fit tail. -/
def msTail (exp : Dict) : List Action :=
  if hasKeyD exp "model_summary" then
    match modelSummaryResolve exp with
    | .error e => [.resolveA (.error e)]
    | .ok _ => [.resolveA (.ok ()), .callA .modelSummaryCb] ++ fitTail
  else fitTail

/-- Lines 186-192 then the rest: `EarlyStopping` (when the key is present)
followed by the model-summary tail. -/
def esTail (exp : Dict) : List Action :=
  if hasKeyD exp "early_stopping" then
    match earlyStoppingResolve exp with
    | .error e => [.resolveA (.error e)]
    | .ok _ => [.resolveA (.ok ()), .callA .earlyStoppingCb] ++ msTail exp
  else msTail exp

/-- Lines 162-199 (the `fast_dev_run` falsy branch): `TQDMProgressBar`,
then `ModelCheckpoint` kwargs and construction, then the optional
`DeviceStatsMonitor`, then the early-stopping tail. -/
def cbTail (exp : Dict) (exp_path : String) : List Action :=
  [.callA .tqdmProgressBar] ++
  match checkpointsResolve exp exp_path with
  | .error e => [.resolveA (.error e)]
  | .ok _ =>
      [.resolveA (.ok ()), .callA .modelCheckpoint] ++
      (if topFlag exp "device_stats_monitor" then [Action.callA .deviceStatsCb] else []) ++
      esTail exp

/-- The module-constructor call site: `load_from_checkpoint` (line 76) or
`LitModule` (line 83). -/
def mcallOf : ModuleSpec → ExtCall
  | .resumed _ => .loadFromCheckpoint
  | .fresh _ _ _ => .litModule

/-- Lines 86-209 given the outcome of the trainer-kwargs resolution: on
success, logger construction (with the calls determined by `loggersOf`),
then the callback phase — skipped straight to the fit tail when
`fast_dev_run` is truthy. -/
def scriptAfterTk (cfg : Config) (exp_path run_name : String) :
    Except Err TrainerKwargs → List Action
  | .error e => [.resolveA (.error e)]
  | .ok tkw =>
      [.resolveA (.ok ()), .stepA .loggerStep] ++
      (loggersOf cfg.exp cfg.projectName (outputPath cfg) run_name
        tkw.fast_dev_run).map (fun l => Action.callA (loggerCall l)) ++
      [.stepA .callbackStep] ++
      (if tkw.fast_dev_run.truthy then fitTail else cbTail cfg.exp exp_path)

/-- Lines 66-209 given the outcome of the module resolution: on success, the
module constructor call, then the trainer-kwargs phase. -/
def scriptAfterMs (cfg : Config) (exp_path run_name : String) :
    Except Err ModuleSpec → List Action
  | .error e => [.resolveA (.error e)]
  | .ok ms =>
      [.resolveA (.ok ()), .callA (mcallOf ms), .stepA .trainerKwargsStep] ++
      scriptAfterTk cfg exp_path run_name (trainerKwargs cfg.exp)

/-- Lines 53-209 given the outcome of the dataset-kwargs resolution: on
success, dataset construction and preparation, the
`len(dataset.train_dataloader())` call of line 69, then the module phase. -/
def scriptAfterDk (cfg : Config) (exp_path run_name : String) :
    Except Err DatasetKwargs → List Action
  | .error e => [.resolveA (.error e)]
  | .ok _ =>
      [.resolveA (.ok ()), .stepA .datasetStep, .callA .litDataset,
       .callA .prepareData, .callA .setupData,
       .stepA .moduleStep, .callA .trainDataloader] ++
      scriptAfterMs cfg exp_path run_name (moduleSpec cfg.exp)

/-- The straight-line body of `main` (lines 36-209) as an action list.  The
list depends only on the configuration (oracle results never influence the
control flow of the script), stops at the first raising resolution, and
mirrors the source order: hydra parsing, `utils.exp` naming, seeding,
dataset kwargs and construction, `len(dataset.train_dataloader())`, module
resolution and construction, trainer kwargs, loggers, callbacks, trainer
construction and `fit`. -/
def script (cfg : Config) (exp_path run_name : String) : List Action :=
  [.stepA .configParsing, .stepA .expNaming, .callA .seedEverything] ++
  scriptAfterDk cfg exp_path run_name (datasetKwargs cfg.exp)

/-- Run an action list against an oracle deciding which external framework
calls succeed; the first raised exception (from a resolution or a call)
aborts the run and is returned as-is. -/
def runScript (oracle : ExtCall → Except Err Unit) : List Action → Except Err Unit
  | [] => .ok ()
  | .resolveA r :: rest =>
      match r with
      | .error e => .error e
      | .ok _ => runScript oracle rest
  | .callA c :: rest =>
      match oracle c with
      | .error e => .error e
      | .ok _ => runScript oracle rest
  | .stepA _ :: rest => runScript oracle rest

/-- The observable event of an action. -/
def eventOf : Action → Option Event
  | .resolveA _ => none
  | .callA c => some (.call c)
  | .stepA s => some (.step s)

/-- `main`, run to completion: either the exception that escaped (config
access or framework call, verbatim), or the trace of phases and external
calls performed.  `exp_path` and `run_name` are the values produced by
`utils.exp` (line 46). -/
def runMain (cfg : Config) (exp_path run_name : String)
    (oracle : ExtCall → Except Err Unit) : Except Err (List Event) :=
  match runScript oracle (script cfg exp_path run_name) with
  | .error e => .error e
  | .ok _ => .ok ((script cfg exp_path run_name).filterMap eventOf)

/-- The oracle under which every framework call succeeds. -/
def oracleOk : ExtCall → Except Err Unit := fun _ => .ok ()

/-- The oracle under which exactly the call site `c` raises `e`. -/
def failOn (c : ExtCall) (e : Err) : ExtCall → Except Err Unit :=
  fun c' => if c' = c then .error e else .ok ()

/-- The phase markers of a trace, in order. -/
def stepsOf (tr : List Event) : List Step :=
  tr.filterMap (fun ev => match ev with | .step s => some s | .call _ => none)

/-- The phase marker of an action, if any. -/
def stepOfAction : Action → Option Step
  | .resolveA _ => none
  | .callA _ => none
  | .stepA s => some s

/-- The logger- and callback-constructor call sites: none of these is
reached when dry-run mode is on. -/
def loggerCallbackCalls : List ExtCall :=
  [.csvLogger, .tensorBoardLogger, .wandbLogger, .tqdmProgressBar,
   .modelCheckpoint, .deviceStatsCb, .earlyStoppingCb, .modelSummaryCb]

/-! ## Concrete configurations used to instantiate the theorems -/

/-- A minimal `exp` section on which every resolution succeeds. -/
def expRunnable : Dict :=
  [("train", .vDict [("batch_size", .vInt 2)]), ("val", .vDict [])]

/-- A full configuration on which `main` runs to completion. -/
def cfgRunnable : Config :=
  ⟨"proj", "root", "out", "data", "exp", expRunnable⟩

/-- An `exp` section supplying `max_epochs` and leaving the other trainer
hyperparameters to their defaults. -/
def expHyper : Dict := [("max_epochs", .vInt 7)]

/-- The trainer kwargs resolved from `expHyper`. -/
def tkwHyper : TrainerKwargs :=
  { trainerKwargsBase expHyper with
    devices := .vList [.vInt 0], accelerator := .vStr "gpu" }

/-- An `exp` section whose `val` section supplies a batch size of 7 (while
`train` uses 2): the supplied validation batch size is ignored because the
guard on line 55 tests the key `val_batch_size`, not `batch_size`. -/
def expValBs : Dict :=
  [("train", .vDict [("batch_size", .vInt 2)]), ("val", .vDict [("batch_size", .vInt 7)])]

/-- Same `val` section as `expValBs`, but `train` uses batch size 3: the
fallback for the validation batch size tracks `train`, so it is not a
hardcoded default. -/
def expValBs3 : Dict :=
  [("train", .vDict [("batch_size", .vInt 3)]), ("val", .vDict [("batch_size", .vInt 7)])]

/-- An `exp` section whose `val` section has both the `val_batch_size` guard
key and the `batch_size` key that line 55 actually reads. -/
def expValBsPresent : Dict :=
  [("train", .vDict [("batch_size", .vInt 2)]),
   ("val", .vDict [("val_batch_size", .vInt 9), ("batch_size", .vInt 7)])]

/-- The dataset kwargs resolved from `expValBsPresent`. -/
def kwValBsPresent : DatasetKwargs :=
  ⟨.vInt 2, .vInt 7, .vInt 4, .vNone, .vNone, .vNone⟩

/-- The module resolved from an empty `exp` section: fresh, all defaults. -/
def msFresh : ModuleSpec :=
  .fresh defaultOptimizer defaultLrScheduler (.vBool false)

/-- An `exp` section configuring two devices. -/
def expMulti : Dict := [("devices", .vList [.vInt 0, .vInt 1])]

/-- The trainer kwargs resolved from `expMulti`. -/
def tkwMulti : TrainerKwargs :=
  { trainerKwargsBase expMulti with
    devices := .vInt 2, accelerator := .vStr "gpu",
    strategy := some (.vStr "ddp"), amp_backend := some (.vStr "native"),
    sync_batchnorm := some (.vBool false) }

/-- An `exp` section with a `checkpoints` section that omits `monitor`. -/
def expCkpt : Dict := [("checkpoints", .vDict [])]

/-- An `exp` section with an empty `early_stopping` section. -/
def expES : Dict := [("early_stopping", .vDict [])]

/-- The callbacks resolved from `expES` with dry-run mode off. -/
def cbsES : List CallbackC :=
  [.progress_bar (.vInt 1),
   .checkpoints (.vStr "E/ckpts") (.vStr "val/epoch/loss"),
   .early_stopping (.vStr "train/epoch/loss") (.vInt 3)]

/-- An `exp` section turning on dry-run mode with every logger and callback
key also set. -/
def expFdr : Dict :=
  [("fast_dev_run", .vBool true), ("csv", .vBool true), ("tb", .vBool true),
   ("wandb", .vBool true), ("checkpoints", .vDict []),
   ("early_stopping", .vDict []), ("model_summary", .vDict []),
   ("device_stats_monitor", .vBool true), ("refresh_rate", .vInt 5)]

/-- A configuration with no `exp.train` section. -/
def cfgNoTrain : Config := ⟨"proj", "root", "out", "data", "exp", []⟩

/-- A configuration whose `exp` has a `train` section but no `val` section. -/
def cfgNoVal : Config :=
  ⟨"proj", "root", "out", "data", "exp", [("train", .vDict [("batch_size", .vInt 2)])]⟩

end PlJdt

namespace PlJdt

/-! ## General helper lemmas -/

/-- Inversion for a successful `Except` bind. -/
theorem exceptBind_ok {α β : Type} {x : Except Err α} {f : α → Except Err β} {b : β}
    (h : x >>= f = .ok b) : ∃ a, x = .ok a ∧ f a = .ok b := by
  cases x with
  | error e => simp [Bind.bind, Except.bind] at h
  | ok a =>
      refine ⟨a, rfl, ?_⟩
      simpa [Bind.bind, Except.bind] using h

theorem filterMap_const_none {α β : Type} (l : List α) :
    l.filterMap (fun _ => (none : Option β)) = [] := by
  induction l with
  | nil => rfl
  | cons a rest ih => simp [List.filterMap_cons, ih]

/-! ## Claim C1 -/

/-- Claim C1: whenever the trainer kwargs are built, each optional trainer
hyperparameter under `exp` resolves to `(lookupD exp k).getD default` — a
function of that one key's lookup alone, so each key resolves independently
of all others; absent keys take the hardcoded defaults `max_epochs = 10`,
`check_val_every_n_epoch = 2`, `log_every_n_steps = 200`,
`fast_dev_run = False`, `num_sanity_val_steps = 0`, `profiler = None`,
`overfit_batches = 0`, and present keys pass their value verbatim. -/
theorem trainer_hyperparams_resolve_independently (exp : Dict) (tkw : TrainerKwargs)
    (h : trainerKwargs exp = .ok tkw) :
    tkw.max_epochs = (lookupD exp "max_epochs").getD (.vInt 10) ∧
    tkw.check_val_every_n_epoch = (lookupD exp "check_val_every_n_epoch").getD (.vInt 2) ∧
    tkw.log_every_n_steps = (lookupD exp "log_every_n_steps").getD (.vInt 200) ∧
    tkw.fast_dev_run = (lookupD exp "fast_dev_run").getD (.vBool false) ∧
    tkw.num_sanity_val_steps = (lookupD exp "num_sanity_val_steps").getD (.vInt 0) ∧
    tkw.profiler = (lookupD exp "profiler").getD .vNone ∧
    tkw.overfit_batches = (lookupD exp "overfit_batches").getD (.vInt 0) := by
  unfold trainerKwargs at h
  split at h
  next d hd =>
    cases hn : d.lenV with
    | error e => rw [hn] at h; simp [Bind.bind, Except.bind] at h
    | ok n =>
        rw [hn] at h
        simp only [Bind.bind, Except.bind] at h
        split at h <;>
          · simp only [pure, Except.pure, Except.ok.injEq] at h
            subst h
            exact ⟨rfl, rfl, rfl, rfl, rfl, rfl, rfl⟩
  next hd =>
    simp only [pure, Except.pure, Except.ok.injEq] at h
    subst h
    exact ⟨rfl, rfl, rfl, rfl, rfl, rfl, rfl⟩

/-- Instantiation of `trainer_hyperparams_resolve_independently` at a
configuration supplying `max_epochs = 7` and nothing else (witness). -/
theorem trainer_hyperparams_resolve_independently_witness :
    tkwHyper.max_epochs = (lookupD expHyper "max_epochs").getD (.vInt 10) ∧
    tkwHyper.check_val_every_n_epoch = (lookupD expHyper "check_val_every_n_epoch").getD (.vInt 2) ∧
    tkwHyper.log_every_n_steps = (lookupD expHyper "log_every_n_steps").getD (.vInt 200) ∧
    tkwHyper.fast_dev_run = (lookupD expHyper "fast_dev_run").getD (.vBool false) ∧
    tkwHyper.num_sanity_val_steps = (lookupD expHyper "num_sanity_val_steps").getD (.vInt 0) ∧
    tkwHyper.profiler = (lookupD expHyper "profiler").getD .vNone ∧
    tkwHyper.overfit_batches = (lookupD expHyper "overfit_batches").getD (.vInt 0) :=
  trainer_hyperparams_resolve_independently expHyper tkwHyper rfl

/-! ## Claim C2 -/

/-- Claim C2 is false on the code.  With `exp.val.batch_size = 7` supplied
(`expValBs`), the dataset's `val_batch_size` argument is 2, not the supplied
value: line 55 guards on the key `val_batch_size` but reads `batch_size`.
And with the validation batch size absent under its guarded name, the
fallback is not a hardcoded default: changing only `exp.train.batch_size`
from 2 (`expValBs`) to 3 (`expValBs3`) changes the resolved value. -/
theorem val_batch_size_claim_counterexample :
    (datasetKwargs expValBs).map DatasetKwargs.val_batch_size = .ok (.vInt 2) ∧
    (datasetKwargs expValBs3).map DatasetKwargs.val_batch_size = .ok (.vInt 3) ∧
    Value.vInt 2 ≠ Value.vInt 7 ∧ Value.vInt 2 ≠ Value.vInt 3 :=
  ⟨rfl, rfl, by simp, by simp⟩

/-- Claim C2, amended: when the dataset kwargs are built, the
`val_batch_size` argument is `cfg.exp.val.batch_size` if the key
`val_batch_size` is present in `exp.val`, and `cfg.exp.train.batch_size`
(the train batch size, not a hardcoded default) otherwise. -/
theorem val_batch_size_resolution (exp : Dict) (td vd : Dict) (kw : DatasetKwargs)
    (ht : lookupD exp "train" = some (.vDict td))
    (hv : lookupD exp "val" = some (.vDict vd))
    (h : datasetKwargs exp = .ok kw) :
    (hasKeyD vd "val_batch_size" = true → lookupD vd "batch_size" = some kw.val_batch_size) ∧
    (hasKeyD vd "val_batch_size" = false → lookupD td "batch_size" = some kw.val_batch_size) := by
  unfold datasetKwargs at h
  obtain ⟨bs, hbs, h⟩ := exceptBind_ok h
  obtain ⟨vbs, hvbs, h⟩ := exceptBind_ok h
  obtain ⟨ts, hts, h⟩ := exceptBind_ok h
  obtain ⟨vs, hvs, h⟩ := exceptBind_ok h
  obtain ⟨tst, htst, h⟩ := exceptBind_ok h
  simp only [pure, Except.pure, Except.ok.injEq] at h
  subst h
  unfold valBatchSizeEntry at hvbs
  simp only [hasSub, sub, attr, hv, Value.asDict, Bind.bind, Except.bind,
             pure, Except.pure] at hvbs
  constructor
  · intro hk
    rw [hk] at hvbs
    simp only [if_true] at hvbs
    simp only [subAttr, sub, attr, hv, Value.asDict, Bind.bind, Except.bind] at hvbs
    cases hlv : lookupD vd "batch_size" with
    | none => rw [hlv] at hvbs; cases hvbs
    | some v => rw [hlv] at hvbs; cases hvbs; rfl
  · intro hk
    rw [hk] at hvbs
    simp only [Bool.false_eq_true, if_false] at hvbs
    simp only [subAttr, sub, attr, ht, Value.asDict, Bind.bind, Except.bind] at hvbs
    cases hlv : lookupD td "batch_size" with
    | none => rw [hlv] at hvbs; cases hvbs
    | some v => rw [hlv] at hvbs; cases hvbs; rfl

/-- Instantiation of `val_batch_size_resolution` at a configuration whose
`val` section carries both the guard key and `batch_size` (witness). -/
theorem val_batch_size_resolution_witness :
    (hasKeyD [("val_batch_size", .vInt 9), ("batch_size", .vInt 7)] "val_batch_size" = true →
      lookupD [("val_batch_size", .vInt 9), ("batch_size", .vInt 7)] "batch_size" =
        some kwValBsPresent.val_batch_size) ∧
    (hasKeyD [("val_batch_size", .vInt 9), ("batch_size", .vInt 7)] "val_batch_size" = false →
      lookupD [("batch_size", .vInt 2)] "batch_size" = some kwValBsPresent.val_batch_size) :=
  val_batch_size_resolution expValBsPresent
    [("batch_size", .vInt 2)] [("val_batch_size", .vInt 9), ("batch_size", .vInt 7)]
    kwValBsPresent rfl rfl rfl

/-! ## Claim C3 -/

/-- A `trainKeyAbsent` key resolves to its hardcoded default. -/
theorem trainOr_absent (exp : Dict) (k : String) (dflt : Value)
    (h : trainKeyAbsent exp k) : trainOr exp k dflt = .ok dflt := by
  unfold trainOr
  rcases h with hn | ⟨td, htd, hk⟩
  · simp [hasKeyD, hn, pure, Except.pure]
  · simp [hasKeyD, htd, hasSub, sub, attr, Value.asDict, Bind.bind, Except.bind, hk,
          pure, Except.pure]

/-- Claim C3: the module is resumed from a checkpoint iff `checkpoint_path`
is present in `exp` and truthy; otherwise a fresh module is constructed,
whose optimizer defaults to
`{name: sgd, params: {lr: 0.00001, weight_decay: 0.0005, momentum: 0.9}}`
(`defaultOptimizer`), whose lr_scheduler defaults to
`{name: step, params: {step_size: 10, gamma: 0.1}}` (`defaultLrScheduler`),
and whose warmup defaults to `False`, whenever the corresponding key is
absent. -/
theorem module_resume_iff_checkpoint_truthy (exp : Dict) (ms : ModuleSpec)
    (h : moduleSpec exp = .ok ms) :
    ((∃ v, lookupD exp "checkpoint_path" = some v ∧ v.truthy = true) ↔
      (∃ cp, ms = .resumed cp)) ∧
    (∀ opt lrs w, ms = .fresh opt lrs w →
      (trainKeyAbsent exp "optimizer" → opt = defaultOptimizer) ∧
      (trainKeyAbsent exp "lr_scheduler" → lrs = defaultLrScheduler) ∧
      (trainKeyAbsent exp "warmup" → w = .vBool false)) := by
  unfold moduleSpec at h
  split at h
  next hc =>
    simp only [pure, Except.pure, Except.ok.injEq] at h
    subst h
    constructor
    · constructor
      · intro _; exact ⟨_, rfl⟩
      · intro _
        cases hl : lookupD exp "checkpoint_path" with
        | none => rw [checkpointPathOf, topOr, hl] at hc; cases hc
        | some v => exact ⟨v, rfl, by rw [checkpointPathOf, topOr, hl] at hc; exact hc⟩
    · intro opt lrs w heq; cases heq
  next hc =>
    obtain ⟨opt, hopt, h⟩ := exceptBind_ok h
    obtain ⟨lrs, hlrs, h⟩ := exceptBind_ok h
    obtain ⟨w, hw, h⟩ := exceptBind_ok h
    simp only [pure, Except.pure, Except.ok.injEq] at h
    subst h
    constructor
    · constructor
      · intro ⟨v, hv, htr⟩
        rw [checkpointPathOf, topOr, hv] at hc
        simp only [Option.getD_some] at hc
        exact absurd htr hc
      · intro ⟨cp, hcp⟩; cases hcp
    · intro opt' lrs' w' heq
      cases heq
      refine ⟨?_, ?_, ?_⟩
      · intro ha
        have := trainOr_absent exp "optimizer" defaultOptimizer ha
        rw [this] at hopt; cases hopt; rfl
      · intro ha
        have := trainOr_absent exp "lr_scheduler" defaultLrScheduler ha
        rw [this] at hlrs; cases hlrs; rfl
      · intro ha
        have := trainOr_absent exp "warmup" (.vBool false) ha
        rw [this] at hw; cases hw; rfl

/-- Instantiation of `module_resume_iff_checkpoint_truthy` at the empty
`exp` section: no checkpoint, fresh module, all defaults (witness). -/
theorem module_resume_iff_checkpoint_truthy_witness :
    ((∃ v, lookupD ([] : Dict) "checkpoint_path" = some v ∧ v.truthy = true) ↔
      (∃ cp, msFresh = .resumed cp)) ∧
    (∀ opt lrs w, msFresh = .fresh opt lrs w →
      (trainKeyAbsent [] "optimizer" → opt = defaultOptimizer) ∧
      (trainKeyAbsent [] "lr_scheduler" → lrs = defaultLrScheduler) ∧
      (trainKeyAbsent [] "warmup" → w = .vBool false)) :=
  module_resume_iff_checkpoint_truthy [] msFresh rfl

/-! ## Claim C5 -/

/-- Claim C5: a distributed strategy is passed to the trainer iff the
`devices` key is present in `exp` and names more than one device; in that
case `devices` is the device count, and `strategy`, `amp_backend`,
`sync_batchnorm` default to `'ddp'`, `'native'`, `False` when absent (the
supplied strategy is passed verbatim when present); with at most one device
configured none of the three keys is passed, `devices` defaults to `[0]`,
and `accelerator` defaults to `'gpu'` in both cases. -/
theorem devices_strategy_resolution (exp : Dict) (tkw : TrainerKwargs) (h : trainerKwargs exp = .ok tkw) :
    (tkw.strategy.isSome = true ↔ multiDevice exp) ∧
    (∀ d n, lookupD exp "devices" = some d → d.lenV = .ok n → 1 < n →
      tkw.devices = .vInt (Int.ofNat n) ∧
      (lookupD exp "strategy" = none → tkw.strategy = some (.vStr "ddp")) ∧
      (∀ v, lookupD exp "strategy" = some v → tkw.strategy = some v) ∧
      (lookupD exp "amp_backend" = none → tkw.amp_backend = some (.vStr "native")) ∧
      (lookupD exp "sync_batchnorm" = none → tkw.sync_batchnorm = some (.vBool false))) ∧
    (¬ multiDevice exp →
      tkw.strategy = none ∧ tkw.amp_backend = none ∧ tkw.sync_batchnorm = none ∧
      (lookupD exp "devices" = none → tkw.devices = .vList [.vInt 0])) ∧
    (lookupD exp "accelerator" = none → tkw.accelerator = .vStr "gpu") := by
  unfold trainerKwargs at h
  split at h
  next d hd =>
    cases hn : d.lenV with
    | error e => rw [hn] at h; simp [Bind.bind, Except.bind] at h
    | ok n =>
        rw [hn] at h
        simp only [Bind.bind, Except.bind] at h
        split at h
        next h1n =>
          simp only [pure, Except.pure, Except.ok.injEq] at h
          subst h
          refine ⟨?_, ?_, ?_, ?_⟩
          · simp only [Option.isSome_some, true_iff]
            exact ⟨d, n, hd, hn, h1n⟩
          · intro d' n' hd' hn' h1'
            rw [hd] at hd'; cases hd'
            rw [hn] at hn'; cases hn'
            refine ⟨rfl, ?_, ?_, ?_, ?_⟩
            · intro hs; simp [topOr, hs]
            · intro v hs; simp [topOr, hs]
            · intro hs; simp [topOr, hs]
            · intro hs; simp [topOr, hs]
          · intro hnm
            exact absurd ⟨d, n, hd, hn, h1n⟩ hnm
          · intro hs; simp [topOr, hs]
        next h1n =>
          simp only [pure, Except.pure, Except.ok.injEq] at h
          subst h
          have hnm : ¬ multiDevice exp := by
            rintro ⟨d', n', hd', hn', h1'⟩
            rw [hd] at hd'; cases hd'
            rw [hn] at hn'; cases hn'
            exact h1n h1'
          refine ⟨?_, ?_, ?_, ?_⟩
          · exact iff_of_false (by simp [trainerKwargsBase]) hnm
          · intro d' n' hd' hn' h1'
            exact absurd ⟨d', n', hd', hn', h1'⟩ hnm
          · intro _
            refine ⟨rfl, rfl, rfl, ?_⟩
            intro hnone; rw [hd] at hnone; cases hnone
          · intro hs; simp [topOr, hs]
  next hd =>
    simp only [pure, Except.pure, Except.ok.injEq] at h
    subst h
    have hnm : ¬ multiDevice exp := by
      rintro ⟨d', n', hd', hn', h1'⟩
      rw [hd] at hd'; cases hd'
    refine ⟨?_, ?_, ?_, ?_⟩
    · exact iff_of_false (by simp [trainerKwargsBase]) hnm
    · intro d' n' hd' hn' h1'
      exact absurd ⟨d', n', hd', hn', h1'⟩ hnm
    · intro _
      exact ⟨rfl, rfl, rfl, fun _ => by simp [topOr, hd]⟩
    · intro hs; simp [topOr, hs]

/-- Instantiation of `devices_strategy_resolution` at a two-device
configuration (witness). -/
theorem devices_strategy_resolution_witness :
    (tkwMulti.strategy.isSome = true ↔ multiDevice expMulti) ∧
    (∀ d n, lookupD expMulti "devices" = some d → d.lenV = .ok n → 1 < n →
      tkwMulti.devices = .vInt (Int.ofNat n) ∧
      (lookupD expMulti "strategy" = none → tkwMulti.strategy = some (.vStr "ddp")) ∧
      (∀ v, lookupD expMulti "strategy" = some v → tkwMulti.strategy = some v) ∧
      (lookupD expMulti "amp_backend" = none → tkwMulti.amp_backend = some (.vStr "native")) ∧
      (lookupD expMulti "sync_batchnorm" = none → tkwMulti.sync_batchnorm = some (.vBool false))) ∧
    (¬ multiDevice expMulti →
      tkwMulti.strategy = none ∧ tkwMulti.amp_backend = none ∧ tkwMulti.sync_batchnorm = none ∧
      (lookupD expMulti "devices" = none → tkwMulti.devices = .vList [.vInt 0])) ∧
    (lookupD expMulti "accelerator" = none → tkwMulti.accelerator = .vStr "gpu") :=
  devices_strategy_resolution expMulti tkwMulti rfl

/-! ## Lemmas about `runScript` and `script` -/

/-- Running an appended action list: the first error wins. -/
theorem runScript_append (oracle : ExtCall → Except Err Unit) (l1 l2 : List Action) :
    runScript oracle (l1 ++ l2) =
      match runScript oracle l1 with
      | .error e => .error e
      | .ok _ => runScript oracle l2 := by
  induction l1 with
  | nil => simp [runScript]
  | cons a rest ih =>
      cases a with
      | resolveA r => cases r <;> simp [runScript, ih]
      | callA c => cases hc : oracle c <;> simp [runScript, hc, ih]
      | stepA s => simp [runScript, ih]

/-- A successful run contains no raising resolution. -/
theorem runScript_ok_no_error_resolve {oracle : ExtCall → Except Err Unit}
    {l : List Action} (hok : runScript oracle l = .ok ()) {e : Err}
    (hm : Action.resolveA (.error e) ∈ l) : False := by
  induction l with
  | nil => cases hm
  | cons a rest ih =>
      cases a with
      | resolveA r =>
          cases r with
          | error e2 => simp [runScript] at hok
          | ok u =>
              rcases List.mem_cons.mp hm with h | h
              · cases h
              · exact ih (by simpa [runScript] using hok) h
      | callA c =>
          cases hc : oracle c with
          | error e2 => rw [runScript, hc] at hok; cases hok
          | ok u =>
              rcases List.mem_cons.mp hm with h | h
              · cases h
              · rw [runScript, hc] at hok
                exact ih hok h
      | stepA s =>
          rcases List.mem_cons.mp hm with h | h
          · cases h
          · exact ih (by simpa [runScript] using hok) h

/-- Pop one external call off a successful run. -/
theorem runScript_ok_call {oracle : ExtCall → Except Err Unit} {c : ExtCall}
    {rest : List Action}
    (hok : runScript oracle (Action.callA c :: rest) = .ok ()) :
    runScript oracle rest = .ok () := by
  rw [runScript] at hok
  cases hc : oracle c with
  | error e => rw [hc] at hok; exact Except.noConfusion hok
  | ok u => rw [hc] at hok; exact hok

/-- A successful run of an appended list succeeds on its right part. -/
theorem runScript_ok_append_right {oracle : ExtCall → Except Err Unit}
    {l1 l2 : List Action} (hok : runScript oracle (l1 ++ l2) = .ok ()) :
    runScript oracle l2 = .ok () := by
  rw [runScript_append] at hok
  cases hpre : runScript oracle l1 with
  | error e => rw [hpre] at hok; exact Except.noConfusion hok
  | ok u => rw [hpre] at hok; exact hok

/-- A run that reaches a raising resolution does not succeed. -/
theorem runScript_error_resolve_ne_ok {oracle : ExtCall → Except Err Unit} (e : Err) :
    runScript oracle [Action.resolveA (.error e)] ≠ .ok () := by
  rw [runScript]
  exact fun h => Except.noConfusion h

/-- If the all-success run performs the call `c`, then making exactly the
call site `c` raise `e` makes the run end in `e`. -/
theorem runScript_failOn {l : List Action} {c : ExtCall} (e : Err)
    (hok : runScript oracleOk l = .ok ()) (hm : Action.callA c ∈ l) :
    runScript (failOn c e) l = .error e := by
  induction l with
  | nil => cases hm
  | cons a rest ih =>
      cases a with
      | resolveA r =>
          cases r with
          | error e2 => simp [runScript] at hok
          | ok u =>
              rcases List.mem_cons.mp hm with h | h
              · cases h
              · rw [runScript]
                exact ih (by simpa [runScript] using hok) h
      | callA c2 =>
          by_cases hcc : c2 = c
          · subst hcc
            rw [runScript]
            simp [failOn]
          · rcases List.mem_cons.mp hm with h | h
            · injection h with h2; exact absurd h2.symm hcc
            · rw [runScript]
              have hfo : failOn c e c2 = .ok () := by simp [failOn, hcc]
              rw [hfo]
              exact ih (by simpa [runScript, oracleOk] using hok) h
      | stepA s =>
          rcases List.mem_cons.mp hm with h | h
          · cases h
          · rw [runScript]
            exact ih (by simpa [runScript] using hok) h

theorem stepsOf_filterMap (l : List Action) :
    stepsOf (l.filterMap eventOf) = l.filterMap stepOfAction := by
  induction l with
  | nil => rfl
  | cons a rest ih =>
      cases a <;> simp [stepsOf, eventOf, stepOfAction, List.filterMap_cons, ih] <;>
        exact ih

theorem fitTail_steps : fitTail.filterMap stepOfAction = [Step.fitStep] := rfl

theorem msTail_steps {exp : Dict} {oracle : ExtCall → Except Err Unit}
    (hok : runScript oracle (msTail exp) = .ok ()) :
    (msTail exp).filterMap stepOfAction = [Step.fitStep] := by
  unfold msTail at hok ⊢
  cases hkey : hasKeyD exp "model_summary" with
  | false =>
      simp only [hkey, Bool.false_eq_true, if_false]
      exact fitTail_steps
  | true =>
      simp only [hkey, if_true] at hok ⊢
      cases hres : modelSummaryResolve exp with
      | error e =>
          rw [hres] at hok
          exact absurd hok (runScript_error_resolve_ne_ok e)
      | ok d =>
          show List.filterMap stepOfAction
            ([Action.resolveA (Except.ok ()), Action.callA ExtCall.modelSummaryCb] ++ fitTail) =
            [Step.fitStep]
          simp [List.filterMap_cons, List.filterMap_append, stepOfAction, fitTail_steps]

theorem esTail_steps {exp : Dict} {oracle : ExtCall → Except Err Unit}
    (hok : runScript oracle (esTail exp) = .ok ()) :
    (esTail exp).filterMap stepOfAction = [Step.fitStep] := by
  unfold esTail at hok ⊢
  cases hkey : hasKeyD exp "early_stopping" with
  | false =>
      simp only [hkey, Bool.false_eq_true, if_false] at hok ⊢
      exact msTail_steps hok
  | true =>
      simp only [hkey, if_true] at hok ⊢
      cases hres : earlyStoppingResolve exp with
      | error e =>
          rw [hres] at hok
          exact absurd hok (runScript_error_resolve_ne_ok e)
      | ok mp =>
          rw [hres] at hok
          have h1 : runScript oracle (Action.callA ExtCall.earlyStoppingCb :: msTail exp) =
              .ok () := hok
          have hok2 := runScript_ok_call h1
          show List.filterMap stepOfAction
            ([Action.resolveA (Except.ok ()), Action.callA ExtCall.earlyStoppingCb] ++ msTail exp) =
            [Step.fitStep]
          simp [List.filterMap_cons, List.filterMap_append, stepOfAction, msTail_steps hok2]

theorem cbTail_steps {exp : Dict} {p : String} {oracle : ExtCall → Except Err Unit}
    (hok : runScript oracle (cbTail exp p) = .ok ()) :
    (cbTail exp p).filterMap stepOfAction = [Step.fitStep] := by
  unfold cbTail at hok ⊢
  cases hres : checkpointsResolve exp p with
  | error e =>
      rw [hres] at hok
      have h1 : runScript oracle
          [Action.callA ExtCall.tqdmProgressBar, Action.resolveA (Except.error e)] =
          .ok () := hok
      have h2 := runScript_ok_call h1
      rw [runScript] at h2
      exact Except.noConfusion h2
  | ok ck =>
      rw [hres] at hok
      have h1 : runScript oracle
          (Action.callA ExtCall.tqdmProgressBar :: Action.resolveA (Except.ok ()) ::
           Action.callA ExtCall.modelCheckpoint ::
           ((if topFlag exp "device_stats_monitor" = true
             then [Action.callA ExtCall.deviceStatsCb] else []) ++ esTail exp)) = .ok () := hok
      have h2 := runScript_ok_call (runScript_ok_call h1)
      have hok3 : runScript oracle (esTail exp) = .ok () := by
        cases hdsm : topFlag exp "device_stats_monitor" with
        | false =>
            rw [hdsm] at h2
            simpa using h2
        | true =>
            rw [hdsm] at h2
            simp only [if_true, List.singleton_append] at h2
            exact runScript_ok_call h2
      show List.filterMap stepOfAction
          ([Action.callA ExtCall.tqdmProgressBar] ++
            ([Action.resolveA (Except.ok ()), Action.callA ExtCall.modelCheckpoint] ++
              (if topFlag exp "device_stats_monitor" = true
               then [Action.callA ExtCall.deviceStatsCb] else [])) ++ esTail exp) =
          [Step.fitStep]
      rw [List.filterMap_append, List.filterMap_append]
      rw [esTail_steps hok3]
      cases hdsm : topFlag exp "device_stats_monitor" <;>
        simp [stepOfAction, List.filterMap_cons, hdsm]

/-- Any successful run of `script` passes through exactly the eight phases
of `main`, in source order. -/
theorem script_steps (cfg : Config) (p r : String) (oracle : ExtCall → Except Err Unit)
    (hok : runScript oracle (script cfg p r) = .ok ()) :
    (script cfg p r).filterMap stepOfAction =
      [Step.configParsing, Step.expNaming, Step.datasetStep, Step.moduleStep,
       Step.trainerKwargsStep, Step.loggerStep, Step.callbackStep, Step.fitStep] := by
  unfold script at hok ⊢
  cases hdk : datasetKwargs cfg.exp with
  | error e =>
      rw [hdk] at hok
      simp only [scriptAfterDk] at hok
      exact absurd (runScript_ok_append_right hok) (runScript_error_resolve_ne_ok e)
  | ok dk =>
      rw [hdk] at hok
      simp only [scriptAfterDk] at hok ⊢
      cases hms : moduleSpec cfg.exp with
      | error e =>
          rw [hms] at hok
          simp only [scriptAfterMs] at hok
          exact absurd (runScript_ok_append_right (runScript_ok_append_right hok))
            (runScript_error_resolve_ne_ok e)
      | ok msp =>
          rw [hms] at hok
          simp only [scriptAfterMs] at hok ⊢
          cases htk : trainerKwargs cfg.exp with
          | error e =>
              rw [htk] at hok
              simp only [scriptAfterTk] at hok
              exact absurd
                (runScript_ok_append_right (runScript_ok_append_right
                  (runScript_ok_append_right hok)))
                (runScript_error_resolve_ne_ok e)
          | ok tkw =>
              rw [htk] at hok
              simp only [scriptAfterTk] at hok ⊢
              cases hfd : tkw.fast_dev_run.truthy with
              | true =>
                  simp only [hfd, if_true]
                  simp [List.filterMap_append, List.filterMap_cons, stepOfAction,
                        List.filterMap_map, filterMap_const_none, fitTail_steps,
                        mcallOf]
              | false =>
                  rw [hfd] at hok
                  simp only [Bool.false_eq_true, if_false] at hok
                  have hcb : runScript oracle (cbTail cfg.exp p) = .ok () :=
                    runScript_ok_append_right (runScript_ok_append_right
                      (runScript_ok_append_right (runScript_ok_append_right hok)))
                  simp only [hfd, Bool.false_eq_true, if_false]
                  simp [List.filterMap_append, List.filterMap_cons, stepOfAction,
                        List.filterMap_map, filterMap_const_none, cbTail_steps hcb,
                        mcallOf]

/-! ## Claim C4 -/

/-- Claim C4: every completed run of `main` performs its phases in the fixed
order configuration parsing, experiment-directory naming, dataset
construction and preparation, module construction, trainer-kwargs
construction, logger selection, callback selection, and finally the
invocation of `trainer.fit`; no phase precedes an earlier one. -/
theorem main_steps_in_fixed_order (cfg : Config) (p r : String)
    (oracle : ExtCall → Except Err Unit) (trace : List Event)
    (h : runMain cfg p r oracle = .ok trace) :
    stepsOf trace =
      [Step.configParsing, Step.expNaming, Step.datasetStep, Step.moduleStep,
       Step.trainerKwargsStep, Step.loggerStep, Step.callbackStep, Step.fitStep] := by
  unfold runMain at h
  cases hrs : runScript oracle (script cfg p r) with
  | error e => rw [hrs] at h; exact Except.noConfusion h
  | ok u =>
      cases u
      rw [hrs] at h
      have ht : trace = (script cfg p r).filterMap eventOf := by
        cases h; rfl
      subst ht
      rw [stepsOf_filterMap]
      exact script_steps cfg p r oracle hrs

/-- Instantiation of `main_steps_in_fixed_order` on a completed concrete run
(witness). -/
theorem main_steps_in_fixed_order_witness :
    stepsOf ((script cfgRunnable "P" "R").filterMap eventOf) =
      [Step.configParsing, Step.expNaming, Step.datasetStep, Step.moduleStep,
       Step.trainerKwargsStep, Step.loggerStep, Step.callbackStep, Step.fitStep] :=
  main_steps_in_fixed_order cfgRunnable "P" "R" oracleOk
    ((script cfgRunnable "P" "R").filterMap eventOf) rfl

/-! ## Claim C6 -/

/-- Claim C6 is false on the code: there is no single hardcoded fallback for
the checkpoint monitor metric.  With the `checkpoints` section present but
without `monitor` (`expCkpt`), the `ModelCheckpoint` callback is built with
monitor `'train/epoch/loss'` (line 171); with the `checkpoints` section
absent, it is built with monitor `'val/epoch/loss'` (line 179) — two
different values for two monitor-absent configurations. -/
theorem checkpoint_monitor_single_default_counterexample :
    callbacksOf expCkpt "E" (.vBool false) =
      .ok [.progress_bar (.vInt 1),
           .checkpoints (.vStr "E/ckpts") (.vStr "train/epoch/loss")] ∧
    callbacksOf [] "E" (.vBool false) =
      .ok [.progress_bar (.vInt 1),
           .checkpoints (.vStr "E/ckpts") (.vStr "val/epoch/loss")] ∧
    Value.vStr "train/epoch/loss" ≠ Value.vStr "val/epoch/loss" :=
  ⟨rfl, rfl, by simp⟩

/-- Claim C6, amended: the checkpoint monitor fallback depends on whether
the `checkpoints` section itself is present: `'train/epoch/loss'` when the
section is present without `monitor`, `'val/epoch/loss'` when the section is
absent; a supplied monitor is used verbatim. -/
theorem checkpoint_monitor_dual_default (exp : Dict) (p : String) (dp mon : Value)
    (h : checkpointsResolve exp p = .ok (dp, mon)) :
    (lookupD exp "checkpoints" = none → mon = .vStr "val/epoch/loss") ∧
    (∀ cd, lookupD exp "checkpoints" = some (.vDict cd) →
      (lookupD cd "monitor" = none → mon = .vStr "train/epoch/loss") ∧
      (∀ v, lookupD cd "monitor" = some v → mon = v)) := by
  unfold checkpointsResolve at h
  split at h
  next hk =>
    constructor
    · intro hnone
      rw [hasKeyD, hnone] at hk
      exact Bool.noConfusion hk
    · intro cd hcd
      obtain ⟨dp2, hdp, h⟩ := exceptBind_ok h
      obtain ⟨mon2, hmon, h⟩ := exceptBind_ok h
      simp only [pure, Except.pure, Except.ok.injEq, Prod.mk.injEq] at h
      obtain ⟨hdp2, hmon2⟩ := h
      subst hdp2; subst hmon2
      unfold ckptMonitorEntry at hmon
      simp only [hasSub, sub, attr, hcd, Value.asDict, Bind.bind, Except.bind,
                 pure, Except.pure] at hmon
      constructor
      · intro hmn
        rw [hasKeyD, hmn] at hmon
        simp only [Option.isSome_none, Bool.false_eq_true, if_false] at hmon
        cases hmon; rfl
      · intro v hv
        rw [hasKeyD, hv] at hmon
        simp only [Option.isSome_some, if_true] at hmon
        simp only [subAttr, sub, attr, hcd, Value.asDict, Bind.bind, Except.bind, hv,
                   Except.ok.injEq] at hmon
        exact hmon.symm
  next hk =>
    simp only [pure, Except.pure, Except.ok.injEq, Prod.mk.injEq] at h
    obtain ⟨hdp2, hmon2⟩ := h
    subst hdp2; subst hmon2
    constructor
    · intro _; rfl
    · intro cd hcd
      rw [hasKeyD, hcd] at hk
      exact absurd rfl hk

/-- Instantiation of `checkpoint_monitor_dual_default` at a `checkpoints`
section without `monitor` (witness). -/
theorem checkpoint_monitor_dual_default_witness :
    (lookupD expCkpt "checkpoints" = none →
      Value.vStr "train/epoch/loss" = .vStr "val/epoch/loss") ∧
    (∀ cd, lookupD expCkpt "checkpoints" = some (.vDict cd) →
      (lookupD cd "monitor" = none → Value.vStr "train/epoch/loss" = .vStr "train/epoch/loss") ∧
      (∀ v, lookupD cd "monitor" = some v → Value.vStr "train/epoch/loss" = v)) :=
  checkpoint_monitor_dual_default expCkpt "E" (.vStr "E/ckpts")
    (.vStr "train/epoch/loss") rfl

/-! ## Claim C7 -/

/-- Claim C7: exceptions raised by the external frameworks propagate
unchanged out of `main`.  If the all-success run of a configuration performs
the external call `c`, then under an oracle in which exactly that framework
call raises `e` — dataset, module, logger, callback or trainer construction,
or the training loop itself — `main` ends with exactly the error `e`: the
script has no handler, retry, or recovery of its own. -/
theorem framework_errors_propagate_unchanged (cfg : Config) (p r : String)
    (c : ExtCall) (e : Err) (trace : List Event)
    (h : runMain cfg p r oracleOk = .ok trace) (hc : Event.call c ∈ trace) :
    runMain cfg p r (failOn c e) = .error e := by
  unfold runMain at h ⊢
  cases hrs : runScript oracleOk (script cfg p r) with
  | error e2 => rw [hrs] at h; exact Except.noConfusion h
  | ok u =>
      cases u
      rw [hrs] at h
      have ht : trace = (script cfg p r).filterMap eventOf := by
        cases h; rfl
      subst ht
      have hmem : Action.callA c ∈ script cfg p r := by
        obtain ⟨a, ha, hea⟩ := List.mem_filterMap.mp hc
        cases a with
        | resolveA rr => cases hea
        | stepA s => cases hea
        | callA c2 =>
            simp only [eventOf, Option.some.injEq] at hea
            cases hea
            exact ha
      rw [runScript_failOn e hrs hmem]

/-- Instantiation of `framework_errors_propagate_unchanged`: making the
`LitDataset` constructor raise on a runnable configuration ends `main` with
exactly that error (witness). -/
theorem framework_errors_propagate_unchanged_witness :
    runMain cfgRunnable "P" "R" (failOn .litDataset (.extErr "LitDataset" "boom")) =
      .error (.extErr "LitDataset" "boom") :=
  framework_errors_propagate_unchanged cfgRunnable "P" "R" .litDataset
    (.extErr "LitDataset" "boom") ((script cfgRunnable "P" "R").filterMap eventOf)
    rfl (by decide)

/-! ## Claim C8 -/

/-- The `EarlyStopping` kwargs resolve with defaults `'train/epoch/loss'`
and `3`, and with supplied values verbatim. -/
theorem es_resolve_kwargs (exp : Dict) (ed : Dict) (mon pat : Value)
    (hed : lookupD exp "early_stopping" = some (.vDict ed))
    (h : earlyStoppingResolve exp = .ok (mon, pat)) :
    (lookupD ed "monitor" = none → mon = .vStr "train/epoch/loss") ∧
    (∀ v, lookupD ed "monitor" = some v → mon = v) ∧
    (lookupD ed "patience" = none → pat = .vInt 3) ∧
    (∀ v, lookupD ed "patience" = some v → pat = v) := by
  unfold earlyStoppingResolve at h
  obtain ⟨mon2, hmon, h⟩ := exceptBind_ok h
  obtain ⟨pat2, hpat, h⟩ := exceptBind_ok h
  simp only [pure, Except.pure, Except.ok.injEq, Prod.mk.injEq] at h
  obtain ⟨h1, h2⟩ := h; subst h1; subst h2
  unfold esMonitorEntry at hmon
  unfold esPatienceEntry at hpat
  simp only [hasSub, sub, attr, hed, Value.asDict, Bind.bind, Except.bind,
             pure, Except.pure] at hmon hpat
  refine ⟨?_, ?_, ?_, ?_⟩
  · intro hn
    rw [hasKeyD, hn] at hmon
    simp only [Option.isSome_none, Bool.false_eq_true, if_false] at hmon
    cases hmon; rfl
  · intro v hv
    rw [hasKeyD, hv] at hmon
    simp only [Option.isSome_some, if_true] at hmon
    simp only [subAttr, sub, attr, hed, Value.asDict, Bind.bind, Except.bind, hv,
               Except.ok.injEq] at hmon
    exact hmon.symm
  · intro hn
    rw [hasKeyD, hn] at hpat
    simp only [Option.isSome_none, Bool.false_eq_true, if_false] at hpat
    cases hpat; rfl
  · intro v hv
    rw [hasKeyD, hv] at hpat
    simp only [Option.isSome_some, if_true] at hpat
    simp only [subAttr, sub, attr, hed, Value.asDict, Bind.bind, Except.bind, hv,
               Except.ok.injEq] at hpat
    exact hpat.symm

/-- Claim C8: with dry-run mode off, an early-stopping callback is built iff
the `early_stopping` key is present in `exp`; its monitor defaults to
`'train/epoch/loss'` and its patience to `3` when the sub-key is absent, and
supplied values are used verbatim. -/
theorem early_stopping_resolution (exp : Dict) (p : String) (fdr : Value)
    (cbs : List CallbackC)
    (hf : fdr.truthy = false) (h : callbacksOf exp p fdr = .ok cbs) :
    ((∃ m pa, CallbackC.early_stopping m pa ∈ cbs) ↔
      hasKeyD exp "early_stopping" = true) ∧
    (∀ m pa, CallbackC.early_stopping m pa ∈ cbs →
      ∀ ed, lookupD exp "early_stopping" = some (.vDict ed) →
        (lookupD ed "monitor" = none → m = .vStr "train/epoch/loss") ∧
        (∀ v, lookupD ed "monitor" = some v → m = v) ∧
        (lookupD ed "patience" = none → pa = .vInt 3) ∧
        (∀ v, lookupD ed "patience" = some v → pa = v)) := by
  unfold callbacksOf at h
  rw [hf] at h
  simp only [Bool.false_eq_true, if_false] at h
  obtain ⟨ck, hck, h⟩ := exceptBind_ok h
  obtain ⟨es, hes, h⟩ := exceptBind_ok h
  obtain ⟨ms, hms, h⟩ := exceptBind_ok h
  simp only [pure, Except.pure, Except.ok.injEq] at h
  subst h
  have hms2 : ms = [] ∨ ∃ d, ms = [CallbackC.model_summary d] := by
    unfold msCallbackOpt at hms
    split at hms
    · obtain ⟨d, hd, hms⟩ := exceptBind_ok hms
      simp only [pure, Except.pure, Except.ok.injEq] at hms
      exact Or.inr ⟨d, hms.symm⟩
    · simp only [pure, Except.pure, Except.ok.injEq] at hms
      exact Or.inl hms.symm
  unfold esCallbackOpt at hes
  split at hes
  next hk =>
    obtain ⟨mp, hmp, hes⟩ := exceptBind_ok hes
    simp only [pure, Except.pure, Except.ok.injEq] at hes
    subst hes
    constructor
    · constructor
      · intro _; exact hk
      · intro _
        exact ⟨mp.1, mp.2, by simp⟩
    · intro m pa hm ed hed
      have hm2 : m = mp.1 ∧ pa = mp.2 := by
        rcases hms2 with h0 | ⟨d, h0⟩ <;> subst h0 <;>
          cases hdsm : topFlag exp "device_stats_monitor" <;>
            simp [hdsm] at hm <;> exact hm
      obtain ⟨h1, h2⟩ := hm2
      subst h1; subst h2
      obtain ⟨mon, pat⟩ := mp
      exact es_resolve_kwargs exp ed mon pat hed hmp
  next hk =>
    simp only [pure, Except.pure, Except.ok.injEq] at hes
    subst hes
    constructor
    · constructor
      · rintro ⟨m, pa, hm⟩
        exfalso
        rcases hms2 with h0 | ⟨d, h0⟩ <;> subst h0 <;>
          cases hdsm : topFlag exp "device_stats_monitor" <;>
            simp [hdsm] at hm
      · intro hkk
        exact absurd hkk hk
    · intro m pa hm ed hed
      exfalso
      rcases hms2 with h0 | ⟨d, h0⟩ <;> subst h0 <;>
        cases hdsm : topFlag exp "device_stats_monitor" <;>
          simp [hdsm] at hm

/-- Instantiation of `early_stopping_resolution` at a configuration with an
empty `early_stopping` section and dry-run off (witness). -/
theorem early_stopping_resolution_witness :
    ((∃ m pa, CallbackC.early_stopping m pa ∈ cbsES) ↔
      hasKeyD expES "early_stopping" = true) ∧
    (∀ m pa, CallbackC.early_stopping m pa ∈ cbsES →
      ∀ ed, lookupD expES "early_stopping" = some (.vDict ed) →
        (lookupD ed "monitor" = none → m = .vStr "train/epoch/loss") ∧
        (∀ v, lookupD ed "monitor" = some v → m = v) ∧
        (lookupD ed "patience" = none → pa = .vInt 3) ∧
        (∀ v, lookupD ed "patience" = some v → pa = v)) :=
  early_stopping_resolution expES "E" (.vBool false) cbsES rfl rfl

/-! ## Claim C9 -/

/-- The `fast_dev_run` trainer kwarg always resolves to
`cfg.exp.fast_dev_run if present else False`, in every branch of the
trainer-kwargs construction. -/
theorem trainerKwargs_fast_dev_run (exp : Dict) (tkw : TrainerKwargs)
    (h : trainerKwargs exp = .ok tkw) :
    tkw.fast_dev_run = topOr exp "fast_dev_run" (.vBool false) := by
  unfold trainerKwargs at h
  split at h
  next d hd =>
    cases hn : d.lenV with
    | error e => rw [hn] at h; simp [Bind.bind, Except.bind] at h
    | ok n =>
        rw [hn] at h
        simp only [Bind.bind, Except.bind] at h
        split at h <;>
          · simp only [pure, Except.pure, Except.ok.injEq] at h
            subst h
            rfl
  next hd =>
    simp only [pure, Except.pure, Except.ok.injEq] at h
    subst h
    rfl

/-- Claim C9: when `fast_dev_run` resolves to a truthy value, the logger
list and the callback list passed to the trainer are both empty, regardless
of the csv / tb / wandb / checkpoints / early_stopping / model_summary /
device_stats_monitor / refresh_rate keys; moreover no logger or callback
constructor call appears anywhere in the run's script. -/
theorem fast_dev_run_disables_loggers_and_callbacks (exp : Dict)
    (pn op rn p : String)
    (hf : (topOr exp "fast_dev_run" (.vBool false)).truthy = true) :
    loggersOf exp pn op rn (topOr exp "fast_dev_run" (.vBool false)) = [] ∧
    callbacksOf exp p (topOr exp "fast_dev_run" (.vBool false)) = .ok [] ∧
    (∀ tkw, trainerKwargs exp = .ok tkw →
      tkw.fast_dev_run = topOr exp "fast_dev_run" (.vBool false)) ∧
    (∀ cfg : Config, ∀ r c, cfg.exp = exp → Action.callA c ∈ script cfg p r →
      c ∉ loggerCallbackCalls) := by
  refine ⟨by simp [loggersOf, hf], ?_, ?_, ?_⟩
  · unfold callbacksOf
    rw [hf]
    rfl
  · exact fun tkw htk => trainerKwargs_fast_dev_run exp tkw htk
  · intro cfg r c hcfg hc
    rcases cfg with ⟨a0, b0, c0, d0, e0, expf⟩
    simp only at hcfg
    subst hcfg
    unfold script at hc
    simp only at hc
    cases hdk : datasetKwargs expf with
    | error e =>
        rw [hdk] at hc
        simp only [scriptAfterDk] at hc
        simp at hc
        subst hc
        decide
    | ok dk =>
        rw [hdk] at hc
        simp only [scriptAfterDk] at hc
        cases hms : moduleSpec expf with
        | error e =>
            rw [hms] at hc
            simp only [scriptAfterMs] at hc
            simp at hc
            rcases hc with rfl | rfl | rfl | rfl | rfl <;> decide
        | ok msp =>
            rw [hms] at hc
            simp only [scriptAfterMs] at hc
            cases htk : trainerKwargs expf with
            | error e =>
                rw [htk] at hc
                simp only [scriptAfterTk] at hc
                cases msp <;>
                  · simp [mcallOf] at hc
                    rcases hc with rfl | rfl | rfl | rfl | rfl | rfl <;> decide
            | ok tkw =>
                rw [htk] at hc
                simp only [scriptAfterTk] at hc
                have hfd : tkw.fast_dev_run.truthy = true := by
                  rw [trainerKwargs_fast_dev_run expf tkw htk]; exact hf
                have hlg : loggersOf expf a0 (outputPath ⟨a0, b0, c0, d0, e0, expf⟩) r
                    tkw.fast_dev_run = [] := by
                  simp [loggersOf, hfd]
                rw [hlg] at hc
                cases msp <;>
                  · simp [mcallOf, hfd, fitTail] at hc
                    rcases hc with rfl | rfl | rfl | rfl | rfl | rfl | rfl | rfl | rfl | rfl <;>
                      decide

/-- Instantiation of `fast_dev_run_disables_loggers_and_callbacks` at a
dry-run configuration that also enables every logger and callback key
(witness). -/
theorem fast_dev_run_disables_loggers_and_callbacks_witness :
    loggersOf expFdr "pn" "op" "rn" (topOr expFdr "fast_dev_run" (.vBool false)) = [] ∧
    callbacksOf expFdr "p" (topOr expFdr "fast_dev_run" (.vBool false)) = .ok [] ∧
    (∀ tkw, trainerKwargs expFdr = .ok tkw →
      tkw.fast_dev_run = topOr expFdr "fast_dev_run" (.vBool false)) ∧
    (∀ cfg : Config, ∀ r c, cfg.exp = expFdr → Action.callA c ∈ script cfg "p" r →
      c ∉ loggerCallbackCalls) :=
  fast_dev_run_disables_loggers_and_callbacks expFdr "pn" "op" "rn" "p" rfl

/-! ## Claim C10 -/

/-- Claim C10: the `exp.train` and `exp.val` sections are mandatory: their
`keys()` are read unconditionally while building the dataset kwargs
(lines 54-55), so with `train` absent `main` raises the missing-key error
for `train`, and with `train` present (as a mapping) but `val` absent it
raises the missing-key error for `val` — in both cases before the dataset is
ever constructed, even though lines 79-81 later guard on
`'train' in cfg.exp.keys()` as if the section were optional. -/
theorem train_val_sections_mandatory (cfg : Config) (p r : String) :
    (lookupD cfg.exp "train" = none →
      runMain cfg p r oracleOk = .error (.missingKey "train") ∧
      Action.callA .litDataset ∉ script cfg p r) ∧
    (∀ td, lookupD cfg.exp "train" = some (.vDict td) → lookupD cfg.exp "val" = none →
      runMain cfg p r oracleOk = .error (.missingKey "val") ∧
      Action.callA .litDataset ∉ script cfg p r) := by
  constructor
  · intro htr
    have hdk : datasetKwargs cfg.exp = .error (.missingKey "train") := by
      simp [datasetKwargs, trainBatchSizeEntry, hasSub, sub, attr, htr,
            Bind.bind, Except.bind]
    have hs : script cfg p r =
        [Action.stepA .configParsing, .stepA .expNaming, .callA .seedEverything] ++
        [.resolveA (.error (.missingKey "train"))] := by
      unfold script
      rw [hdk]
      rfl
    have hrs : runScript oracleOk (script cfg p r) = .error (.missingKey "train") := by
      rw [hs]; rfl
    constructor
    · unfold runMain
      rw [hrs]
    · rw [hs]; simp
  · intro td htd hval
    have hbs : ∃ bs, trainBatchSizeEntry cfg.exp = .ok bs := by
      cases hb : lookupD td "batch_size" with
      | some v =>
          exact ⟨v, by simp [trainBatchSizeEntry, hasSub, sub, attr, htd, Value.asDict,
            hasKeyD, hb, subAttr, Bind.bind, Except.bind, pure, Except.pure]⟩
      | none =>
          exact ⟨.vInt 2, by simp [trainBatchSizeEntry, hasSub, sub, attr, htd,
            Value.asDict, hasKeyD, hb, Bind.bind, Except.bind, pure, Except.pure]⟩
    have hvbs : valBatchSizeEntry cfg.exp = .error (.missingKey "val") := by
      simp [valBatchSizeEntry, hasSub, sub, attr, hval, Bind.bind, Except.bind]
    have hdk : datasetKwargs cfg.exp = .error (.missingKey "val") := by
      obtain ⟨bs, hbs2⟩ := hbs
      simp [datasetKwargs, hbs2, hvbs, Bind.bind, Except.bind]
    have hs : script cfg p r =
        [Action.stepA .configParsing, .stepA .expNaming, .callA .seedEverything] ++
        [.resolveA (.error (.missingKey "val"))] := by
      unfold script
      rw [hdk]
      rfl
    have hrs : runScript oracleOk (script cfg p r) = .error (.missingKey "val") := by
      rw [hs]; rfl
    constructor
    · unfold runMain
      rw [hrs]
    · rw [hs]; simp

/-- Instantiation of `train_val_sections_mandatory` at a configuration with
no `train` section and at one with `train` but no `val` (witness). -/
theorem train_val_sections_mandatory_witness :
    (runMain cfgNoTrain "P" "R" oracleOk = .error (.missingKey "train") ∧
      Action.callA .litDataset ∉ script cfgNoTrain "P" "R") ∧
    (runMain cfgNoVal "P" "R" oracleOk = .error (.missingKey "val") ∧
      Action.callA .litDataset ∉ script cfgNoVal "P" "R") :=
  ⟨(train_val_sections_mandatory cfgNoTrain "P" "R").1 rfl,
   (train_val_sections_mandatory cfgNoVal "P" "R").2
     [("batch_size", .vInt 2)] rfl rfl⟩

end PlJdt
